import Mathlib

/-!
Verification of the stage-dispatch entry point `console` in
`haphpipe/phylo.py`.

The source builds an argument parser, registers the `multiple_align` stage as
a subcommand (the `build_tree` line is commented out), parses `argv`, and then
runs `args.func(**sysutils.args_params(args))`.

The embedding below models, in order:
  * the values and argument schemas the parser works with;
  * the subcommand parser itself (the `argparse` semantics actually exercised
    by the source, under Python 3: `add_subparsers()` without `required=True`
    makes the subcommand optional, so an empty `argv` parses successfully and
    the later attribute access `args.func` raises `AttributeError`);
  * the collaborators that live in this repository but outside the provided
    source tree (`sysutils.args_params`, the help formatter, and the
    `multiple_align` stage registration), each modelled from the spec;
  * the driver `console` itself, translated statement by statement.
-/

namespace Haphpipe

/-- A parsed argument value. `Value.none` is Python's `None`, which doubles as
the "no default" sentinel for argument defaults. -/
inductive Value where
  | none : Value
  | str : String → Value
  | int : Int → Value
deriving DecidableEq, Repr

/-- The declared type of a command-line argument. -/
inductive ArgType where
  | str : ArgType
  | int : ArgType
deriving DecidableEq, Repr

/-- One argument declaration in a stage's schema: name, type, whether it is
required, its default (with `Value.none` as the "no default" sentinel), and
its help text. -/
structure ArgSpec where
  name : String
  argType : ArgType
  required : Bool
  default : Value
  help : String
deriving DecidableEq, Repr

/-- A handler bound onto the parsed namespace by a stage's registration
function: the keyword-parameter names its signature accepts, and the function
itself. A handler may raise (modelled as `Except.error`). -/
structure BoundHandler where
  accepts : List String
  run : List (String × Value) → Except String Value

/-- One attribute value on the parsed namespace: either an ordinary parsed
value, or the bound-handler reference stored under the reserved `func` key. -/
inductive NsVal where
  | val : Value → NsVal
  | func : BoundHandler → NsVal

/-- The parsed-argument namespace (`argparse.Namespace`): a finite map from
attribute name to attribute value. -/
abbrev ArgNamespace := List (String × NsVal)

/-- A registered stage: its subcommand name, its argument schema, and the
handler it binds as the dispatch target. -/
structure Stage where
  name : String
  schema : List ArgSpec
  handler : List (String × Value) → Except String Value

/-- A usage error reported by the parser. Each constructor carries the
offending token or argument name, so the rendered diagnostic names the
specific violation. -/
inductive UsageErr where
  | invalidChoice : String → UsageErr
  | unrecognizedArgument : String → UsageErr
  | missingValue : String → UsageErr
  | invalidValue : String → ArgType → String → UsageErr
  | missingRequired : String → UsageErr
deriving DecidableEq, Repr

/-- The tokens or argument names a usage diagnostic names. -/
def UsageErr.names : UsageErr → List String
  | UsageErr.invalidChoice cmd => [cmd]
  | UsageErr.unrecognizedArgument tok => [tok]
  | UsageErr.missingValue tok => [tok]
  | UsageErr.invalidValue argName _ _ => [argName]
  | UsageErr.missingRequired argName => [argName]

/-- How parsing can stop before producing a namespace: a usage error
(diagnostic plus usage text, exit status 2) or a help request (help text,
exit status 0). -/
inductive ParseStop where
  | usage : UsageErr → ParseStop
  | help : ParseStop

/-- Whether a token is the help flag. -/
def isHelpToken (t : String) : Bool :=
  t == "-h" || t == "--help"

/-- Python's `str.startswith`, over the character list of the string. -/
def strStartsWith (s pre : String) : Bool :=
  pre.data.isPrefixOf s.data

/-- The numeric value of a decimal digit character, if it is one. -/
def digitVal? (c : Char) : Option Nat :=
  if 48 ≤ c.toNat ∧ c.toNat ≤ 57 then Option.some (c.toNat - 48) else Option.none

/-- Read a nonempty run of decimal digits as a natural number. -/
def digitsToNatAux : List Char → Nat → Option Nat
  | [], acc => Option.some acc
  | c :: rest, acc =>
    match digitVal? c with
    | Option.some d => digitsToNatAux rest (acc * 10 + d)
    | Option.none => Option.none

/-- Read a nonempty digit string as a natural number; the empty string is
invalid. -/
def digitsToNat? : List Char → Option Nat
  | [] => Option.none
  | c :: rest => digitsToNatAux (c :: rest) 0

/-- Python's `int(raw)` as `argparse` applies it to an `int`-typed argument:
an optional minus sign followed by decimal digits; anything else raises
`ValueError`, which `argparse` reports as an invalid value. -/
def strToInt? (s : String) : Option Int :=
  match s.data with
  | [] => Option.none
  | '-' :: ds => (digitsToNat? ds).map (fun n => -(n : Int))
  | ds => (digitsToNat? ds).map (fun n => (n : Int))

/-- Parse the flag tokens of a stage invocation into raw (name, value) pairs:
each argument is given as `--name value`. Unknown flags and flags missing
their value are usage errors naming the token. -/
def parseTokens (schema : List ArgSpec) : List String → Except ParseStop (List (String × String))
  | [] => Except.ok []
  | t :: rest =>
    if isHelpToken t then Except.error ParseStop.help
    else if strStartsWith t "--" then
      match schema.find? (fun a => a.name == t.drop 2) with
      | Option.none => Except.error (ParseStop.usage (UsageErr.unrecognizedArgument t))
      | Option.some _ =>
        match rest with
        | [] => Except.error (ParseStop.usage (UsageErr.missingValue t))
        | v :: rest2 =>
          match parseTokens schema rest2 with
          | Except.error e => Except.error e
          | Except.ok ps => Except.ok ((t.drop 2, v) :: ps)
    else Except.error (ParseStop.usage (UsageErr.unrecognizedArgument t))

/-- Convert a raw string to the argument's declared type; a failed conversion
is a usage error naming the argument and its expected type. -/
def convertValue (a : ArgSpec) (raw : String) : Except ParseStop Value :=
  match a.argType with
  | ArgType.str => Except.ok (Value.str raw)
  | ArgType.int =>
    match strToInt? raw with
    | Option.some n => Except.ok (Value.int n)
    | Option.none => Except.error (ParseStop.usage (UsageErr.invalidValue a.name ArgType.int raw))

/-- Resolve each schema argument to its parsed value: a supplied raw value is
converted to the declared type; an absent required argument is a usage error
naming it; an absent optional argument takes its declared default. -/
def buildParams : List ArgSpec → List (String × String) → Except ParseStop (List (String × Value))
  | [], _ => Except.ok []
  | a :: restSchema, provided =>
    match provided.lookup a.name with
    | Option.some raw =>
      match convertValue a raw with
      | Except.error e => Except.error e
      | Except.ok v =>
        match buildParams restSchema provided with
        | Except.error e => Except.error e
        | Except.ok ps => Except.ok ((a.name, v) :: ps)
    | Option.none =>
      if a.required then Except.error (ParseStop.usage (UsageErr.missingRequired a.name))
      else
        match buildParams restSchema provided with
        | Except.error e => Except.error e
        | Except.ok ps => Except.ok ((a.name, a.default) :: ps)

/-- Parse the tokens after a matched subcommand against that stage's schema.
On success the resulting namespace holds every schema argument's value plus
the reserved `func` attribute bound to the stage's handler (the effect of the
stage's `set_defaults(func=...)` registration convention), whose accepted
keyword set is exactly the schema's argument names. -/
def parseStage (st : Stage) (tokens : List String) : Except ParseStop ArgNamespace :=
  match parseTokens st.schema tokens with
  | Except.error e => Except.error e
  | Except.ok provided =>
    match buildParams st.schema provided with
    | Except.error e => Except.error e
    | Except.ok params =>
      Except.ok (params.map (fun p => (p.1, NsVal.val p.2)) ++
        [("func", NsVal.func ⟨st.schema.map ArgSpec.name, st.handler⟩)])

/-- The call `parser.parse_args(argv)` for the top-level parser of `phylo.py`, whose
only configuration is the subcommand registry. Python 3 `argparse` with a
non-required subparsers action: an empty `argv` parses successfully into an
empty namespace (no `func` attribute); a first token matching a registered
stage name hands the rest to that stage's subparser; an unregistered name is
the usage error `invalid choice`; a help flag prints help and exits 0. -/
def parseArgs (registry : List Stage) (argv : List String) : Except ParseStop ArgNamespace :=
  match argv with
  | [] => Except.ok []
  | cmd :: rest =>
    if isHelpToken cmd then Except.error ParseStop.help
    else if strStartsWith cmd "-" then
      Except.error (ParseStop.usage (UsageErr.unrecognizedArgument cmd))
    else
      match registry.find? (fun s => s.name == cmd) with
      | Option.some st => parseStage st rest
      | Option.none => Except.error (ParseStop.usage (UsageErr.invalidChoice cmd))

/-- Look up the bound handler stored on the namespace under the reserved
`func` attribute, as the attribute access `args.func` does. `Option.none`
means the attribute is absent and the access raises `AttributeError`. -/
def findFunc (ns : ArgNamespace) : Option BoundHandler :=
  match ns.lookup "func" with
  | Option.some (NsVal.func b) => Option.some b
  | _ => Option.none

/-- Modelled from the spec: `sysutils.args_params` is code of this repository
that is not under `src/`. Per the spec, it filters the full parsed-argument
set down to the subset of parameters the bound handler's signature accepts,
so that dispatch bookkeeping fields — in particular the bound-handler
reference itself — are never forwarded to the handler. -/
def args_params (ns : ArgNamespace) : List (String × Value) :=
  match findFunc ns with
  | Option.some bh =>
    ns.filterMap (fun kv =>
      match kv.2 with
      | NsVal.val v => if kv.1 ∈ bh.accepts then Option.some (kv.1, v) else Option.none
      | NsVal.func _ => Option.none)
  | Option.none =>
    ns.filterMap (fun kv =>
      match kv.2 with
      | NsVal.val v => Option.some (kv.1, v)
      | NsVal.func _ => Option.none)

/-- A record of one handler call: the positional arguments and the keyword
arguments it was invoked with. The source's call `args.func(**params)` passes
everything by keyword. -/
structure Invocation where
  positionalArgs : List Value
  keywordArgs : List (String × Value)
deriving DecidableEq, Repr

/-- How one process run ends. -/
inductive RunResult where
  | helpExit : RunResult
  | usageError : UsageErr → RunResult
  | attributeError : String → RunResult
  | handlerRaised : String → RunResult
  | finished : Value → RunResult
deriving DecidableEq, Repr

/-- What one process run produced: the handler invocations that occurred and
the final result. -/
structure RunOutput where
  invocations : List Invocation
  result : RunResult
deriving DecidableEq, Repr

/-- The process exit status for each way a run can end: 0 on success or help,
2 on a parser-reported usage error, 1 on an uncaught exception
(`AttributeError` or an error raised by the handler). -/
def exitCode : RunResult → Nat
  | RunResult.helpExit => 0
  | RunResult.usageError _ => 2
  | RunResult.attributeError _ => 1
  | RunResult.handlerRaised _ => 1
  | RunResult.finished _ => 0

/-- Whether the run printed usage text: the parser prints usage with every
usage error and with help; an uncaught exception prints only a traceback. -/
def printsUsage : RunResult → Bool
  | RunResult.helpExit => true
  | RunResult.usageError _ => true
  | _ => false

/-- The entry point `console()` of `phylo.py`, translated statement by
statement: parse `argv` against the registry; a parse stop ends the run with
no handler invoked; otherwise resolve `args.func` (absence raises
`AttributeError`) and call it with the filtered keyword arguments. The call
on line 27 is an expression statement, so the handler's return value is
discarded and `console` itself returns Python `None`. -/
def console (registry : List Stage) (argv : List String) : RunOutput :=
  match parseArgs registry argv with
  | Except.error ParseStop.help => ⟨[], RunResult.helpExit⟩
  | Except.error (ParseStop.usage e) => ⟨[], RunResult.usageError e⟩
  | Except.ok ns =>
    match findFunc ns with
    | Option.none => ⟨[], RunResult.attributeError "func"⟩
    | Option.some bh =>
      match bh.run (args_params ns) with
      | Except.error msg => ⟨[⟨[], args_params ns⟩], RunResult.handlerRaised msg⟩
      | Except.ok _ => ⟨[⟨[], args_params ns⟩], RunResult.finished Value.none⟩

/-- The required `--input` argument of the modelled `multiple_align` schema. -/
def inputArg : ArgSpec :=
  ⟨"input", ArgType.str, true, Value.none, "input sequence file"⟩

/-- The optional `--threads` argument of the modelled `multiple_align`
schema, defaulting to 1. -/
def threadsArg : ArgSpec :=
  ⟨"threads", ArgType.int, false, Value.int 1, "number of worker threads"⟩

/-- Modelled from the spec: `multiple_align.stageparser` is code of this
repository that is not under `src/`. The spec treats each stage's schema as
opaque to the dispatcher and gives as its concrete example a stage with a
required `--input` and an optional `--threads` defaulting to 1; the modelled
schema uses exactly that. -/
def maSchema : List ArgSpec :=
  [inputArg, threadsArg]

/-- The registry `console` builds (phylo.py lines 19-23): exactly one stage,
`multiple_align`, is registered; the `build_tree` registration is commented
out. The stage's handler is the external collaborator, so it is a
parameter. -/
def consoleRegistry (maHandler : List (String × Value) → Except String Value) : List Stage :=
  [⟨"multiple_align", maSchema, maHandler⟩]

/-- A benign handler used to instantiate theorems: returns Python `None`. -/
def okHandler : List (String × Value) → Except String Value :=
  fun _ => Except.ok Value.none

/-- A handler that always raises, used to instantiate the error-propagation
theorems. -/
def failingHandler : List (String × Value) → Except String Value :=
  fun _ => Except.error "boom"

/-- A handler that returns the integer 42, used to test what the entry point
does with a handler's return value. -/
def const42Handler : List (String × Value) → Except String Value :=
  fun _ => Except.ok (Value.int 42)

/-- Render a parsed value the way the help formatter displays defaults. -/
def showValue : Value → String
  | Value.none => "None"
  | Value.str s => s
  | Value.int n => toString n

/-- Modelled from the spec: `sysutils.ArgumentDefaultsHelpFormatterSkipNone`
is code of this repository that is not under `src/`. Per the spec it renders
an argument's help line with its default value appended, except that the
default display is suppressed when the declared default is the "no default"
sentinel (`Value.none`). -/
def helpLine (a : ArgSpec) : String :=
  if a.default = Value.none then a.help
  else a.help ++ " (default: " ++ showValue a.default ++ ")"

/-- Two runs of the entry point on the same `argv`, in sequence. The source
module keeps no mutable module-level state, so the embedding of `console` is
a pure function of the registry and `argv`. -/
def runTwice (registry : List Stage) (argv : List String) : RunOutput × RunOutput :=
  (console registry argv, console registry argv)

/-- The namespace produced by a successful parse of
`multiple_align --input <inputVal>` with the threads default filled in. -/
def maNamespace (h : List (String × Value) → Except String Value)
    (inputVal : String) : ArgNamespace :=
  [("input", NsVal.val (Value.str inputVal)), ("threads", NsVal.val (Value.int 1)),
   ("func", NsVal.func ⟨["input", "threads"], h⟩)]

/-! ## Helper lemmas -/

/-- Every keyword argument produced by the filter has a name in the bound
handler's accepted set. -/
theorem mem_args_params_accepts (ns : ArgNamespace) (bh : BoundHandler)
    (hf : findFunc ns = Option.some bh) :
    ∀ kv ∈ args_params ns, kv.1 ∈ bh.accepts := by
  intro kv hkv
  unfold args_params at hkv
  rw [hf] at hkv
  simp only [List.mem_filterMap] at hkv
  obtain ⟨a, -, ha⟩ := hkv
  rcases a with ⟨k, w⟩
  cases w with
  | val v =>
    simp only at ha
    split at ha
    · cases ha
      assumption
    · cases ha
  | func b => cases ha

/-- Equation: a usage error from the parser ends the run with the diagnostic
and no invocation. -/
theorem console_usage (reg : List Stage) (argv : List String) (e : UsageErr)
    (hp : parseArgs reg argv = Except.error (ParseStop.usage e)) :
    console reg argv = ⟨[], RunResult.usageError e⟩ := by
  unfold console
  rw [hp]

/-- Equation: a help request ends the run with the help exit and no
invocation. -/
theorem console_help (reg : List Stage) (argv : List String)
    (hp : parseArgs reg argv = Except.error ParseStop.help) :
    console reg argv = ⟨[], RunResult.helpExit⟩ := by
  unfold console
  rw [hp]

/-- Equation: a successful parse hands the namespace to the dispatch step. -/
theorem console_ok (reg : List Stage) (argv : List String) (ns : ArgNamespace)
    (hp : parseArgs reg argv = Except.ok ns) :
    console reg argv =
      match findFunc ns with
      | Option.none => ⟨[], RunResult.attributeError "func"⟩
      | Option.some bh =>
        match bh.run (args_params ns) with
        | Except.error msg => ⟨[⟨[], args_params ns⟩], RunResult.handlerRaised msg⟩
        | Except.ok _ => ⟨[⟨[], args_params ns⟩], RunResult.finished Value.none⟩ := by
  unfold console
  rw [hp]

/-- The run of `console` either performs no handler invocation (and then any successful
parse has no bound handler), or performs exactly the one invocation with the
filtered keyword arguments. -/
theorem console_cases (reg : List Stage) (argv : List String) :
    ((console reg argv).invocations = [] ∧
      ∀ ns, parseArgs reg argv = Except.ok ns → findFunc ns = Option.none) ∨
    ∃ ns bh, parseArgs reg argv = Except.ok ns ∧ findFunc ns = Option.some bh ∧
      (console reg argv).invocations = [⟨[], args_params ns⟩] := by
  cases hp : parseArgs reg argv with
  | error e =>
    left
    have hinv : (console reg argv).invocations = [] := by
      cases e with
      | usage u => rw [console_usage reg argv u hp]
      | help => rw [console_help reg argv hp]
    refine ⟨hinv, ?_⟩
    intro ns hns
    cases hns
  | ok ns =>
    rw [console_ok reg argv ns hp]
    cases hf : findFunc ns with
    | none =>
      left
      refine ⟨rfl, ?_⟩
      intro ns2 hns2
      cases hns2
      exact hf
    | some bh =>
      right
      refine ⟨ns, bh, rfl, hf, ?_⟩
      show (match bh.run (args_params ns) with
            | Except.error msg =>
              (⟨[⟨[], args_params ns⟩], RunResult.handlerRaised msg⟩ : RunOutput)
            | Except.ok _ =>
              ⟨[⟨[], args_params ns⟩], RunResult.finished Value.none⟩).invocations =
        [⟨[], args_params ns⟩]
      cases hr : bh.run (args_params ns) with
      | error msg => rfl
      | ok v => rfl

/-- Every invocation `console` performs arises from a successful parse with a
bound handler, is empty on positional arguments, and carries exactly the
filtered keyword arguments. -/
theorem console_invocations_spec (reg : List Stage) (argv : List String) :
    ∀ inv ∈ (console reg argv).invocations,
      ∃ ns bh, parseArgs reg argv = Except.ok ns ∧ findFunc ns = Option.some bh ∧
        inv = ⟨[], args_params ns⟩ := by
  intro inv hinv
  rcases console_cases reg argv with ⟨hnil, -⟩ | ⟨ns, bh, hp, hf, hlist⟩
  · rw [hnil] at hinv
    cases hinv
  · rw [hlist] at hinv
    cases hinv with
    | head => exact ⟨ns, bh, hp, hf, rfl⟩
    | tail _ hmem => cases hmem

/-- A successful `buildParams` resolves exactly the schema's argument names,
in schema order. -/
theorem buildParams_keys (schema : List ArgSpec) :
    ∀ provided ps, buildParams schema provided = Except.ok ps →
      ps.map Prod.fst = schema.map ArgSpec.name := by
  induction schema with
  | nil =>
    intro provided ps h
    simp only [buildParams] at h
    cases h
    rfl
  | cons a rest ih =>
    intro provided ps h
    simp only [buildParams] at h
    split at h
    · split at h
      · cases h
      · split at h
        · cases h
        · cases h
          rename_i hb
          simp only [List.map_cons]
          rw [ih provided _ hb]
    · split at h
      · cases h
      · split at h
        · cases h
        · cases h
          rename_i hb
          simp only [List.map_cons]
          rw [ih provided _ hb]

/-- Looking up the reserved `func` attribute behind value entries whose keys
avoid `func` finds the bound handler. -/
theorem lookup_func_append (ps : List (String × Value)) (b : BoundHandler)
    (hnf : "func" ∉ ps.map Prod.fst) :
    List.lookup "func" (ps.map (fun p => (p.1, NsVal.val p.2)) ++
      [("func", NsVal.func b)]) = Option.some (NsVal.func b) := by
  induction ps with
  | nil => rfl
  | cons p rest ih =>
    have hne : ("func" : String) ≠ p.1 := by
      intro heq
      exact hnf (by rw [List.map_cons, ← heq]; exact List.mem_cons_self _ _)
    have hnf2 : "func" ∉ rest.map Prod.fst := by
      intro hmem
      exact hnf (by rw [List.map_cons]; exact List.mem_cons_of_mem _ hmem)
    simp only [List.map_cons, List.cons_append, List.lookup_cons,
      beq_false_of_ne hne]
    exact ih hnf2

/-- A successful parse against the registry of `phylo.py` yields either the
empty namespace (empty `argv`) or the `multiple_align` namespace: schema
parameters in schema order followed by the reserved `func` attribute bound to
the supplied handler with accepted keyword set `{input, threads}`. -/
theorem parseArgs_ok_structure (h : List (String × Value) → Except String Value)
    (argv : List String) (ns : ArgNamespace)
    (hp : parseArgs (consoleRegistry h) argv = Except.ok ns) :
    ns = [] ∨
    ∃ params : List (String × Value), params.map Prod.fst = ["input", "threads"] ∧
      ns = params.map (fun p => (p.1, NsVal.val p.2)) ++
        [("func", NsVal.func ⟨["input", "threads"], h⟩)] := by
  cases argv with
  | nil =>
    left
    have hred : parseArgs (consoleRegistry h) [] = Except.ok [] := rfl
    rw [hred] at hp
    cases hp
    rfl
  | cons cmd rest =>
    right
    have hred : parseArgs (consoleRegistry h) (cmd :: rest) =
        (if isHelpToken cmd = true then Except.error ParseStop.help
         else if strStartsWith cmd "-" = true then
           Except.error (ParseStop.usage (UsageErr.unrecognizedArgument cmd))
         else
           match List.find? (fun s => s.name == cmd) (consoleRegistry h) with
           | Option.some st => parseStage st rest
           | Option.none => Except.error (ParseStop.usage (UsageErr.invalidChoice cmd))) := rfl
    rw [hred] at hp
    split at hp
    · cases hp
    · split at hp
      · cases hp
      · split at hp
        · rename_i st hfind
          have hst : st = ⟨"multiple_align", maSchema, h⟩ := by
            unfold consoleRegistry at hfind
            cases hbeq : (("multiple_align" : String) == cmd) with
            | true =>
              rw [List.find?_cons_of_pos _ (by exact hbeq)] at hfind
              cases hfind
              rfl
            | false =>
              rw [List.find?_cons_of_neg _
                (by simp only [Bool.not_eq_true]; exact hbeq)] at hfind
              cases hfind
          subst hst
          simp only [parseStage] at hp
          split at hp
          · cases hp
          · split at hp
            · cases hp
            · rename_i params hb
              cases hp
              refine ⟨params, ?_, rfl⟩
              rw [buildParams_keys _ _ params hb]
              rfl
        · cases hp

/-- If a parse against the registry of `phylo.py` succeeds and the namespace
has a bound handler, that handler accepts exactly `{input, threads}`. -/
theorem consoleRegistry_accepts (h : List (String × Value) → Except String Value)
    (argv : List String) (ns : ArgNamespace) (bh : BoundHandler)
    (hp : parseArgs (consoleRegistry h) argv = Except.ok ns)
    (hf : findFunc ns = Option.some bh) :
    bh.accepts = ["input", "threads"] := by
  rcases parseArgs_ok_structure h argv ns hp with hnil | ⟨params, hkeys, hns⟩
  · rw [hnil] at hf
    cases hf
  · subst hns
    unfold findFunc at hf
    rw [lookup_func_append params _ (by rw [hkeys]; decide)] at hf
    cases hf
    rfl

/-- Parsing a `multiple_align` invocation reduces to the stage
parser. -/
theorem parseArgs_ma (h : List (String × Value) → Except String Value)
    (rest : List String) :
    parseArgs (consoleRegistry h) ("multiple_align" :: rest) =
      parseStage ⟨"multiple_align", maSchema, h⟩ rest := rfl

/-- The stage parse with known tokens reduces to parameter resolution. -/
theorem parseStage_ma (h : List (String × Value) → Except String Value)
    (rest : List String) (provided : List (String × String))
    (ht : parseTokens maSchema rest = Except.ok provided) :
    parseStage ⟨"multiple_align", maSchema, h⟩ rest =
      (match buildParams maSchema provided with
       | Except.error e => Except.error e
       | Except.ok params =>
         Except.ok (params.map (fun p : String × Value => (p.1, NsVal.val p.2)) ++
           [("func", NsVal.func ⟨["input", "threads"], h⟩)])) := by
  show (match parseTokens maSchema rest with
        | Except.error e => Except.error e
        | Except.ok provided0 =>
          match buildParams maSchema provided0 with
          | Except.error e => Except.error e
          | Except.ok params =>
            Except.ok (params.map (fun p : String × Value => (p.1, NsVal.val p.2)) ++
              [("func", NsVal.func ⟨["input", "threads"], h⟩)])) = _
  rw [ht]

/-- Resolving the `multiple_align` schema fails with a `missing required`
diagnostic naming `input` when no `input` value was supplied. -/
theorem buildParams_ma_missing (provided : List (String × String))
    (hin : provided.lookup "input" = Option.none) :
    buildParams maSchema provided =
      Except.error (ParseStop.usage (UsageErr.missingRequired "input")) := by
  show (match provided.lookup "input" with
        | Option.some raw =>
          match convertValue inputArg raw with
          | Except.error e => Except.error e
          | Except.ok v =>
            match buildParams [threadsArg] provided with
            | Except.error e => Except.error e
            | Except.ok ps => Except.ok (("input", v) :: ps)
        | Option.none =>
          Except.error (ParseStop.usage (UsageErr.missingRequired "input"))) = _
  rw [hin]

/-- Resolving the `multiple_align` schema fails with an `invalid value`
diagnostic naming `threads` when the supplied `threads` value is not an
integer. -/
theorem buildParams_ma_badint (provided : List (String × String)) (s raw : String)
    (hin : provided.lookup "input" = Option.some s)
    (hth : provided.lookup "threads" = Option.some raw)
    (hbad : strToInt? raw = Option.none) :
    buildParams maSchema provided =
      Except.error (ParseStop.usage (UsageErr.invalidValue "threads" ArgType.int raw)) := by
  have h2 : buildParams [threadsArg] provided =
      Except.error (ParseStop.usage (UsageErr.invalidValue "threads" ArgType.int raw)) := by
    show (match provided.lookup "threads" with
          | Option.some raw0 =>
            match convertValue threadsArg raw0 with
            | Except.error e => Except.error e
            | Except.ok v =>
              match buildParams ([] : List ArgSpec) provided with
              | Except.error e => Except.error e
              | Except.ok ps => Except.ok (("threads", v) :: ps)
          | Option.none =>
            match buildParams ([] : List ArgSpec) provided with
            | Except.error e => Except.error e
            | Except.ok ps => Except.ok (("threads", Value.int 1) :: ps)) = _
    rw [hth]
    show (match (match strToInt? raw with
                 | Option.some n => Except.ok (Value.int n)
                 | Option.none =>
                   Except.error
                     (ParseStop.usage (UsageErr.invalidValue "threads" ArgType.int raw))) with
          | Except.error e => Except.error e
          | Except.ok v =>
            match buildParams ([] : List ArgSpec) provided with
            | Except.error e => Except.error e
            | Except.ok ps => Except.ok (("threads", v) :: ps)) = _
    rw [hbad]
  show (match provided.lookup "input" with
        | Option.some raw0 =>
          match convertValue inputArg raw0 with
          | Except.error e => Except.error e
          | Except.ok v =>
            match buildParams [threadsArg] provided with
            | Except.error e => Except.error e
            | Except.ok ps => Except.ok (("input", v) :: ps)
        | Option.none =>
          Except.error (ParseStop.usage (UsageErr.missingRequired "input"))) = _
  rw [hin]
  show (match buildParams [threadsArg] provided with
        | Except.error e => Except.error e
        | Except.ok ps => Except.ok (("input", Value.str s) :: ps)) = _
  rw [h2]

/-- Equation: a dispatch whose handler raises ends the run with the raised
error, after the one invocation. -/
theorem console_dispatch_raised (reg : List Stage) (argv : List String)
    (ns : ArgNamespace) (bh : BoundHandler) (msg : String)
    (hp : parseArgs reg argv = Except.ok ns)
    (hf : findFunc ns = Option.some bh)
    (hr : bh.run (args_params ns) = Except.error msg) :
    console reg argv = ⟨[⟨[], args_params ns⟩], RunResult.handlerRaised msg⟩ := by
  rw [console_ok reg argv ns hp, hf]
  show (match bh.run (args_params ns) with
        | Except.error m =>
          (⟨[⟨[], args_params ns⟩], RunResult.handlerRaised m⟩ : RunOutput)
        | Except.ok _ =>
          ⟨[⟨[], args_params ns⟩], RunResult.finished Value.none⟩) = _
  rw [hr]

/-! ## Claim theorems -/

/-- C1: for every successfully parsed invocation that selects a stage, the
dispatcher invokes the bound handler with only keyword parameters drawn from
the handler's accepted set `{input, threads}`; the dispatch bookkeeping
attribute `func` (the bound-handler reference on the parsed namespace) never
appears among the invocation arguments. -/
theorem dispatched_params_filtered (h : List (String × Value) → Except String Value)
    (argv : List String) (inv : Invocation)
    (hmem : inv ∈ (console (consoleRegistry h) argv).invocations) :
    inv.keywordArgs.map Prod.fst ⊆ ["input", "threads"] ∧
    "func" ∉ inv.keywordArgs.map Prod.fst := by
  obtain ⟨ns, bh, hp, hf, hinv⟩ :=
    console_invocations_spec (consoleRegistry h) argv inv hmem
  have hacc := consoleRegistry_accepts h argv ns bh hp hf
  subst hinv
  have hsub : (args_params ns).map Prod.fst ⊆ ["input", "threads"] := by
    intro k hk
    rw [List.mem_map] at hk
    obtain ⟨kv, hkv, hk1⟩ := hk
    have hmem2 := mem_args_params_accepts ns bh hf kv hkv
    rw [hacc] at hmem2
    rw [← hk1]
    exact hmem2
  refine ⟨hsub, ?_⟩
  intro hmem3
  exact absurd (hsub hmem3) (by decide)

/-- Witness for C1 at `multiple_align --input foo.fa` with a concrete
handler. -/
theorem dispatched_params_filtered_witness :
    [("input", Value.str "foo.fa"), ("threads", Value.int 1)].map Prod.fst ⊆
      ["input", "threads"] ∧
    "func" ∉ [("input", Value.str "foo.fa"), ("threads", Value.int 1)].map Prod.fst :=
  dispatched_params_filtered okHandler ["multiple_align", "--input", "foo.fa"]
    ⟨[], [("input", Value.str "foo.fa"), ("threads", Value.int 1)]⟩ (by decide)

/-- C2: with no subcommand token in `argv`, the parse succeeds with no bound
handler (Python 3 subparsers are optional), so the run ends in an uncaught
`AttributeError` on `args.func`: exit status is non-zero and no handler is
invoked, but no usage text is printed — contradicting the claim's required
usage report. -/
theorem no_subcommand_uncaught_attribute_error :
    console (consoleRegistry okHandler) [] = ⟨[], RunResult.attributeError "func"⟩ ∧
    printsUsage (RunResult.attributeError "func") = false ∧
    exitCode (RunResult.attributeError "func") ≠ 0 := by
  refine ⟨rfl, rfl, ?_⟩
  decide

/-- C3: an error raised by the invoked stage handler is propagated unmodified
to the process exit path: the run's result carries the very error the handler
raised and the exit status is non-zero. -/
theorem handler_error_propagated (reg : List Stage) (argv : List String)
    (ns : ArgNamespace) (bh : BoundHandler) (msg : String)
    (hp : parseArgs reg argv = Except.ok ns)
    (hf : findFunc ns = Option.some bh)
    (hr : bh.run (args_params ns) = Except.error msg) :
    (console reg argv).result = RunResult.handlerRaised msg ∧
    exitCode (console reg argv).result ≠ 0 := by
  rw [console_dispatch_raised reg argv ns bh msg hp hf hr]
  refine ⟨rfl, ?_⟩
  show (1 : Nat) ≠ 0
  decide

/-- Witness for C3: a handler that raises `boom` surfaces exactly `boom`. -/
theorem handler_error_propagated_witness :
    (console (consoleRegistry failingHandler) ["multiple_align", "--input", "x"]).result =
      RunResult.handlerRaised "boom" ∧
    exitCode (console (consoleRegistry failingHandler)
      ["multiple_align", "--input", "x"]).result ≠ 0 :=
  handler_error_propagated (consoleRegistry failingHandler)
    ["multiple_align", "--input", "x"] (maNamespace failingHandler "x")
    ⟨["input", "threads"], failingHandler⟩ "boom" rfl rfl rfl

/-- C4 counterexample: at a concrete successful dispatch whose handler
returns the integer 42, the entry point's result is not the handler's return
value — the call on line 27 is an expression statement, so the value is
discarded. -/
theorem handler_return_not_propagated :
    const42Handler [("input", Value.str "x"), ("threads", Value.int 1)] =
      Except.ok (Value.int 42) ∧
    (console (consoleRegistry const42Handler) ["multiple_align", "--input", "x"]).result ≠
      RunResult.finished (Value.int 42) := by
  refine ⟨rfl, ?_⟩
  decide

/-- C4 (amended): for every successful dispatch, the entry point invokes the
handler with the filtered parameters but discards the handler's return value;
`console` itself returns Python `None` regardless of what the handler
returned. -/
theorem successful_dispatch_returns_none (reg : List Stage) (argv : List String)
    (ns : ArgNamespace) (bh : BoundHandler) (v : Value)
    (hp : parseArgs reg argv = Except.ok ns)
    (hf : findFunc ns = Option.some bh)
    (hr : bh.run (args_params ns) = Except.ok v) :
    console reg argv = ⟨[⟨[], args_params ns⟩], RunResult.finished Value.none⟩ := by
  rw [console_ok reg argv ns hp, hf]
  show (match bh.run (args_params ns) with
        | Except.error m =>
          (⟨[⟨[], args_params ns⟩], RunResult.handlerRaised m⟩ : RunOutput)
        | Except.ok _ =>
          ⟨[⟨[], args_params ns⟩], RunResult.finished Value.none⟩) = _
  rw [hr]

/-- Witness for the amended C4: the handler returns 42, `console` returns
`None`. -/
theorem successful_dispatch_returns_none_witness :
    console (consoleRegistry const42Handler) ["multiple_align", "--input", "x"] =
      ⟨[⟨[], [("input", Value.str "x"), ("threads", Value.int 1)]⟩],
        RunResult.finished Value.none⟩ :=
  successful_dispatch_returns_none (consoleRegistry const42Handler)
    ["multiple_align", "--input", "x"] (maNamespace const42Handler "x")
    ⟨["input", "threads"], const42Handler⟩ (Value.int 42) rfl rfl rfl

/-- C5: when the `multiple_align` subcommand is present but the required
`input` parameter is missing, or the supplied `threads` value is not an
integer, the process ends with a usage diagnostic naming the specific
violation, a non-zero exit status, and no handler invocation. -/
theorem usage_violation_rejected_before_dispatch
    (h : List (String × Value) → Except String Value) (rest : List String)
    (provided : List (String × String))
    (ht : parseTokens maSchema rest = Except.ok provided) :
    (provided.lookup "input" = Option.none →
      console (consoleRegistry h) ("multiple_align" :: rest) =
        ⟨[], RunResult.usageError (UsageErr.missingRequired "input")⟩ ∧
      (UsageErr.missingRequired "input").names = ["input"] ∧
      exitCode (RunResult.usageError (UsageErr.missingRequired "input")) ≠ 0) ∧
    (∀ s raw : String, provided.lookup "input" = Option.some s →
      provided.lookup "threads" = Option.some raw → strToInt? raw = Option.none →
      console (consoleRegistry h) ("multiple_align" :: rest) =
        ⟨[], RunResult.usageError (UsageErr.invalidValue "threads" ArgType.int raw)⟩ ∧
      (UsageErr.invalidValue "threads" ArgType.int raw).names = ["threads"] ∧
      exitCode (RunResult.usageError (UsageErr.invalidValue "threads" ArgType.int raw)) ≠ 0) := by
  constructor
  · intro hin
    have hp : parseArgs (consoleRegistry h) ("multiple_align" :: rest) =
        Except.error (ParseStop.usage (UsageErr.missingRequired "input")) := by
      rw [parseArgs_ma h rest, parseStage_ma h rest provided ht,
        buildParams_ma_missing provided hin]
    exact ⟨console_usage _ _ _ hp, rfl, by decide⟩
  · intro s raw hin hth hbad
    have hp : parseArgs (consoleRegistry h) ("multiple_align" :: rest) =
        Except.error (ParseStop.usage (UsageErr.invalidValue "threads" ArgType.int raw)) := by
      rw [parseArgs_ma h rest, parseStage_ma h rest provided ht,
        buildParams_ma_badint provided s raw hin hth hbad]
    exact ⟨console_usage _ _ _ hp, rfl, by show (2 : Nat) ≠ 0; decide⟩

/-- Witness for C5: `multiple_align` with no arguments is rejected citing the
missing required `input`. -/
theorem usage_violation_rejected_before_dispatch_witness :
    console (consoleRegistry okHandler) ["multiple_align"] =
      ⟨[], RunResult.usageError (UsageErr.missingRequired "input")⟩ ∧
    (UsageErr.missingRequired "input").names = ["input"] ∧
    exitCode (RunResult.usageError (UsageErr.missingRequired "input")) ≠ 0 :=
  (usage_violation_rejected_before_dispatch okHandler [] [] rfl).1 rfl

/-- C6: a first positional token that is not a registered stage name is
rejected with a diagnostic naming the invalid subcommand, a non-zero exit
status, and no handler invocation. -/
theorem unknown_subcommand_rejected (h : List (String × Value) → Except String Value)
    (cmd : String) (rest : List String)
    (hne : cmd ≠ "multiple_align") (hdash : strStartsWith cmd "-" = false) :
    console (consoleRegistry h) (cmd :: rest) =
      ⟨[], RunResult.usageError (UsageErr.invalidChoice cmd)⟩ ∧
    cmd ∈ (UsageErr.invalidChoice cmd).names ∧
    exitCode (RunResult.usageError (UsageErr.invalidChoice cmd)) ≠ 0 := by
  have hh : isHelpToken cmd = false := by
    unfold isHelpToken
    have h1 : (cmd == "-h") = false := by
      rw [beq_eq_false_iff_ne]
      intro heq
      rw [heq] at hdash
      exact absurd hdash (by decide)
    have h2 : (cmd == "--help") = false := by
      rw [beq_eq_false_iff_ne]
      intro heq
      rw [heq] at hdash
      exact absurd hdash (by decide)
    rw [h1, h2]
    rfl
  have hfind : List.find? (fun s => s.name == cmd) (consoleRegistry h) = Option.none := by
    unfold consoleRegistry
    rw [List.find?_cons_of_neg _ (by
      simp only [Bool.not_eq_true]
      exact beq_eq_false_iff_ne.mpr (fun heq => hne heq.symm))]
    rfl
  have hp : parseArgs (consoleRegistry h) (cmd :: rest) =
      Except.error (ParseStop.usage (UsageErr.invalidChoice cmd)) := by
    show (if isHelpToken cmd = true then Except.error ParseStop.help
          else if strStartsWith cmd "-" = true then
            Except.error (ParseStop.usage (UsageErr.unrecognizedArgument cmd))
          else
            match List.find? (fun s => s.name == cmd) (consoleRegistry h) with
            | Option.some st => parseStage st rest
            | Option.none =>
              Except.error (ParseStop.usage (UsageErr.invalidChoice cmd))) = _
    rw [hh, hdash]
    show (match List.find? (fun s => s.name == cmd) (consoleRegistry h) with
          | Option.some st => parseStage st rest
          | Option.none =>
            Except.error (ParseStop.usage (UsageErr.invalidChoice cmd))) = _
    rw [hfind]
  exact ⟨console_usage _ _ _ hp, List.mem_singleton_self cmd,
    by show (2 : Nat) ≠ 0; decide⟩

/-- Witness for C6: the anticipated but unwired `build_tree` name is rejected
by name. -/
theorem unknown_subcommand_rejected_witness :
    console (consoleRegistry okHandler) ["build_tree"] =
      ⟨[], RunResult.usageError (UsageErr.invalidChoice "build_tree")⟩ ∧
    "build_tree" ∈ (UsageErr.invalidChoice "build_tree").names ∧
    exitCode (RunResult.usageError (UsageErr.invalidChoice "build_tree")) ≠ 0 :=
  unknown_subcommand_rejected okHandler "build_tree" [] (by decide) (by decide)

/-- C7: the registry built by `console` registers exactly the
`multiple_align` stage; in particular `build_tree` is not registered. -/
theorem registered_stages_exactly_multiple_align
    (h : List (String × Value) → Except String Value) :
    (consoleRegistry h).map Stage.name = ["multiple_align"] ∧
    "build_tree" ∉ (consoleRegistry h).map Stage.name := by
  refine ⟨rfl, ?_⟩
  show "build_tree" ∉ (["multiple_align"] : List String)
  decide

/-- Witness for C7 at a concrete handler. -/
theorem registered_stages_exactly_multiple_align_witness :
    (consoleRegistry okHandler).map Stage.name = ["multiple_align"] ∧
    "build_tree" ∉ (consoleRegistry okHandler).map Stage.name :=
  registered_stages_exactly_multiple_align okHandler

/-- C8: the help formatter displays an argument's default exactly when the
declared default is not the `no default` sentinel; for a sentinel default the
help line is the bare help text. -/
theorem default_display_suppressed_iff_sentinel (a : ArgSpec) :
    (a.default = Value.none → helpLine a = a.help) ∧
    (a.default ≠ Value.none →
      helpLine a = a.help ++ " (default: " ++ showValue a.default ++ ")" ∧
      helpLine a ≠ a.help) := by
  constructor
  · intro hd
    unfold helpLine
    rw [if_pos hd]
  · intro hd
    unfold helpLine
    rw [if_neg hd]
    refine ⟨rfl, ?_⟩
    intro heq
    have hlen := congrArg String.length heq
    rw [String.length_append, String.length_append, String.length_append] at hlen
    have hclose : (")" : String).length = 1 := rfl
    omega

/-- Witness for C8: the sentinel-defaulted `input` shows no default, the
1-defaulted `threads` does. -/
theorem default_display_suppressed_iff_sentinel_witness :
    helpLine inputArg = inputArg.help ∧ helpLine threadsArg ≠ threadsArg.help :=
  ⟨(default_display_suppressed_iff_sentinel inputArg).1 rfl,
   ((default_display_suppressed_iff_sentinel threadsArg).2 (by decide)).2⟩

/-- C9: running the entry point twice on the same `argv` produces identical
outcomes and identical handler-invocation records: the module holds no
mutable state between runs, so dispatch is deterministic across runs. -/
theorem same_argv_same_outcome (reg : List Stage) (argv : List String) :
    (runTwice reg argv).1 = (runTwice reg argv).2 ∧
    (runTwice reg argv).1.invocations = (runTwice reg argv).2.invocations :=
  ⟨rfl, rfl⟩

/-- Witness for C9 at a concrete run. -/
theorem same_argv_same_outcome_witness :
    (runTwice (consoleRegistry okHandler) ["multiple_align", "--input", "x"]).1 =
      (runTwice (consoleRegistry okHandler) ["multiple_align", "--input", "x"]).2 ∧
    (runTwice (consoleRegistry okHandler) ["multiple_align", "--input", "x"]).1.invocations =
      (runTwice (consoleRegistry okHandler) ["multiple_align", "--input", "x"]).2.invocations :=
  same_argv_same_outcome (consoleRegistry okHandler) ["multiple_align", "--input", "x"]

/-- C10: every run performs at most one handler invocation, a run that
reaches dispatch (successful parse with a bound handler) performs exactly
one, and every invocation passes all parameters by keyword — its positional
argument list is empty. -/
theorem handler_invoked_once_by_keyword (reg : List Stage) (argv : List String) :
    (console reg argv).invocations.length ≤ 1 ∧
    (∀ inv ∈ (console reg argv).invocations, inv.positionalArgs = []) ∧
    (∀ ns bh, parseArgs reg argv = Except.ok ns → findFunc ns = Option.some bh →
      (console reg argv).invocations.length = 1) := by
  refine ⟨?_, ?_, ?_⟩
  · rcases console_cases reg argv with ⟨hnil, -⟩ | ⟨ns, bh, -, -, hlist⟩
    · rw [hnil]
      decide
    · rw [hlist]
      exact Nat.le_refl 1
  · intro inv hmem
    obtain ⟨ns, bh, -, -, hinv⟩ := console_invocations_spec reg argv inv hmem
    rw [hinv]
  · intro ns bh hp hf
    rcases console_cases reg argv with ⟨-, hnone⟩ | ⟨ns2, bh2, -, -, hlist⟩
    · have hcontra := hnone ns hp
      rw [hf] at hcontra
      cases hcontra
    · rw [hlist]
      rfl

/-- Witness for C10 at a concrete dispatch. -/
theorem handler_invoked_once_by_keyword_witness :
    (console (consoleRegistry okHandler) ["multiple_align", "--input", "x"]).invocations.length = 1 ∧
    (Invocation.mk [] [("input", Value.str "x"), ("threads", Value.int 1)]).positionalArgs = [] :=
  ⟨(handler_invoked_once_by_keyword (consoleRegistry okHandler)
      ["multiple_align", "--input", "x"]).2.2 (maNamespace okHandler "x")
      ⟨["input", "threads"], okHandler⟩ rfl rfl,
   (handler_invoked_once_by_keyword (consoleRegistry okHandler)
      ["multiple_align", "--input", "x"]).2.1
      ⟨[], [("input", Value.str "x"), ("threads", Value.int 1)]⟩ (by decide)⟩

end Haphpipe
